import Mathlib

/-!
Verification of the conversion-ai backend core against its specification.

The TypeScript sources are shallowly embedded: pure string utilities become
Lean functions over `List Char` / `String`, the Prisma-backed services become
explicit state-passing functions over record types, and promise rejection is
modelled with `Except`.  External collaborators (the Clearbit HTTP call, the
SendGrid HTTP call) are parameters of the embedding; the deterministic mock
providers are embedded in full.
-/

namespace ConversionAI

/-! ## JavaScript string primitives

Embeddings of the String.prototype methods the sources use.  They operate on
`List Char`; the ASCII fragment (the only one exercised by the code and its
data) is modelled exactly.
-/

/-- ASCII whitespace removed by the JavaScript trim method. -/
def isJsSpace (c : Char) : Bool :=
  c = ' ' || c = '\t' || c = '\n' || c = '\r' || c.toNat = 11 || c.toNat = 12

def jsTrimList (l : List Char) : List Char :=
  ((l.dropWhile isJsSpace).reverse.dropWhile isJsSpace).reverse

/-- String.prototype.trim (ASCII whitespace fragment). -/
def jsTrim (s : String) : String := ⟨jsTrimList s.data⟩

/-- String.prototype.toLowerCase (ASCII fragment: Char.toLower lowers A-Z). -/
def jsToLower (s : String) : String := ⟨s.data.map Char.toLower⟩

def lastIndexOfAux (c : Char) : List Char → Nat → Option Nat
  | [], _ => none
  | x :: xs, i =>
    match lastIndexOfAux c xs (i + 1) with
    | some j => some j
    | none => if x = c then some i else none

/-- String.prototype.lastIndexOf for a single character (`none` stands for
the -1 the JavaScript method returns when the character does not occur). -/
def lastIndexOf (c : Char) (l : List Char) : Option Nat := lastIndexOfAux c l 0

/-- String.prototype.split with a single-character separator. -/
def splitOnChar (sep : Char) : List Char → List (List Char)
  | [] => [[]]
  | c :: cs =>
    let r := splitOnChar sep cs
    if c = sep then [] :: r
    else
      match r with
      | [] => [[c]]
      | w :: ws => (c :: w) :: ws

/-- Split at every character satisfying the predicate (String.prototype.split
with a character-class regular expression). -/
def splitOnPred (p : Char → Bool) : List Char → List (List Char)
  | [] => [[]]
  | c :: cs =>
    let r := splitOnPred p cs
    if p c then [] :: r
    else
      match r with
      | [] => [[c]]
      | w :: ws => (c :: w) :: ws

/-- String.prototype.includes: `sub` occurs as a contiguous substring. -/
def listContainsSub (sub l : List Char) : Bool :=
  (List.range (l.length + 1)).any (fun i => sub.isPrefixOf (l.drop i))

def strIncludes (s sub : String) : Bool := listContainsSub sub.data s.data

/-- String.prototype.endsWith. -/
def strEndsWith (s suffixStr : String) : Bool := suffixStr.data.isSuffixOf s.data

/-- String.prototype.startsWith. -/
def strStartsWith (s prefixStr : String) : Bool := prefixStr.data.isPrefixOf s.data

/-! ## emailUtils.ts -/

/-- The curated denylist of free/consumer mail providers
(PERSONAL_EMAIL_DOMAINS in emailUtils.ts, in source order). -/
def PERSONAL_EMAIL_DOMAINS : List String :=
  ["gmail.com", "googlemail.com",
   "outlook.com", "hotmail.com", "live.com", "msn.com", "passport.com",
   "yahoo.com", "yahoo.co.uk", "yahoo.ca", "yahoo.com.au", "yahoo.co.in",
   "yahoo.fr", "yahoo.de", "yahoo.es", "yahoo.it", "yahoo.co.jp",
   "ymail.com", "rocketmail.com",
   "icloud.com", "me.com", "mac.com",
   "aol.com", "aim.com",
   "protonmail.com", "proton.me", "pm.me",
   "zoho.com", "mail.com", "gmx.com", "gmx.net", "gmx.de", "web.de",
   "inbox.com", "fastmail.com", "fastmail.fm", "tutanota.com", "tutanota.de",
   "yandex.com", "yandex.ru", "mail.ru", "rambler.ru",
   "comcast.net", "verizon.net", "att.net", "sbcglobal.net", "bellsouth.net",
   "cox.net", "charter.net", "earthlink.net", "juno.com", "netzero.net",
   "btinternet.com", "sky.com", "virginmedia.com", "ntlworld.com",
   "talktalk.net", "orange.fr", "wanadoo.fr", "free.fr", "t-online.de",
   "arcor.de",
   "tempmail.com", "guerrillamail.com", "mailinator.com", "10minutemail.com",
   "throwaway.email", "sharklasers.com", "trashmail.com"]

def isLowerAlnum (c : Char) : Bool := c.isLower || c.isDigit

/-- One label of the domain regular expression in extractDomain: the language
of [a-z0-9]([a-z0-9-]*[a-z0-9])? . -/
def extractLabelOk (l : List Char) : Bool :=
  !l.isEmpty && isLowerAlnum (l.headD ' ') && isLowerAlnum (l.getLastD ' ') &&
    l.all (fun c => isLowerAlnum c || c = '-')

/-- The domain regular expression of extractDomain, anchored at both ends:
^[a-z0-9]([a-z0-9-]*[a-z0-9])?(\.[a-z0-9]([a-z0-9-]*[a-z0-9])?)+$ .
Labels contain no dot, so the match decomposes along the dots: at least two
labels, each in the label language. -/
def extractDomainRegexTest (domain : List Char) : Bool :=
  let labels := splitOnChar '.' domain
  decide (2 ≤ labels.length) && labels.all extractLabelOk

/-- extractDomain of emailUtils.ts: the domain portion of an email address,
lower-cased and trimmed, or `none` if invalid. -/
def extractDomain (email : String) : Option String :=
  if email = "" then none
  else
    let trimmed := (jsToLower (jsTrim email)).data
    match lastIndexOf '@' trimmed with
    | none => none
    | some atIndex =>
      if atIndex = 0 ∨ atIndex = trimmed.length - 1 then none
      else
        let domain := trimmed.drop (atIndex + 1)
        if !domain.contains '.' then none
        else if !extractDomainRegexTest domain then none
        else some ⟨domain⟩

/-- isBusinessEmail of emailUtils.ts. -/
def isBusinessEmail (email : String) : Bool :=
  match extractDomain email with
  | none => false
  | some domain =>
    if PERSONAL_EMAIL_DOMAINS.contains domain then false
    else if strEndsWith domain ".edu" || strEndsWith domain ".edu.au" ||
        strEndsWith domain ".ac.uk" then false
    else if strEndsWith domain ".gov" || strEndsWith domain ".gov.uk" ||
        strEndsWith domain ".gov.au" then false
    else true

/-- Characters of the local part of the email regular expression in
isValidEmail.  The set is written with code points 39, 96, 123, 124, 125 for
the quote, backquote, and brace/bar characters. -/
def isLocalChar (c : Char) : Bool :=
  c.isAlphanum || "!#$%&*+/=?^_~-.".data.contains c ||
    c.toNat = 39 || c.toNat = 96 || c.toNat = 123 || c.toNat = 124 || c.toNat = 125

/-- One domain label of the email regular expression in isValidEmail: the
language of [a-zA-Z0-9](?:[a-zA-Z0-9-]\x7b0,61\x7d[a-zA-Z0-9])? . -/
def emailLabelOk (l : List Char) : Bool :=
  !l.isEmpty && decide (l.length ≤ 63) &&
    (l.headD ' ').isAlphanum && (l.getLastD ' ').isAlphanum &&
    l.all (fun c => c.isAlphanum || c = '-')

/-- isValidEmail of emailUtils.ts: the simplified RFC 5322 regular expression,
applied to the trimmed input.  Neither the local part nor the domain can
contain the at sign, so a match forces exactly one at sign; the domain
decomposes along its dots into at least two labels. -/
def isValidEmail (email : String) : Bool :=
  if email = "" then false
  else
    let trimmed := (jsTrim email).data
    match splitOnChar '@' trimmed with
    | [localPart, domain] =>
      !localPart.isEmpty && localPart.all isLocalChar &&
        (let labels := splitOnChar '.' domain
         decide (2 ≤ labels.length) && labels.all emailLabelOk)
    | _ => false

/-- normalizeEmail of emailUtils.ts. -/
def normalizeEmail (email : String) : Option String :=
  if !isValidEmail email then none else some (jsToLower (jsTrim email))

/-! ## Data model enumerations (Prisma schema, spec section 3) -/

inductive ResearchStatus
  | pending | processing | complete | failed | na
deriving DecidableEq, Repr

inductive EmailStatus
  | draft | queued | sent | delivered | opened | clicked | bounced | failed
deriving DecidableEq, Repr

/-- The Prisma enum value as the string it interpolates into messages. -/
def EmailStatus.str : EmailStatus → String
  | .draft => "draft"
  | .queued => "queued"
  | .sent => "sent"
  | .delivered => "delivered"
  | .opened => "opened"
  | .clicked => "clicked"
  | .bounced => "bounced"
  | .failed => "failed"

/-! ## clearbit.ts: the enrichment client -/

/-- CompanyData of clearbit.ts.  rawData (an opaque JSON blob in the source)
is modelled as a string-to-string association list. -/
structure CompanyData where
  domain : String
  companyName : Option String
  industry : Option String
  description : Option String
  employeeCount : Option String
  location : Option String
  website : Option String
  linkedinUrl : Option String
  twitterUrl : Option String
  technologies : List String
  rawData : List (String × String)
deriving DecidableEq, Repr

inductive EnrichmentCode
  | NOT_FOUND | API_ERROR | RATE_LIMITED | INVALID_DOMAIN
deriving DecidableEq, Repr

structure EnrichmentError where
  code : EnrichmentCode
  message : String
deriving DecidableEq, Repr

inductive EnrichmentResult
  | success (data : CompanyData)
  | failure (error : EnrichmentError)
deriving DecidableEq, Repr

/-- isValidDomain of ClearbitClient, the language of
^(?:[a-zA-Z0-9](?:[a-zA-Z0-9-]\x7b0,61\x7d[a-zA-Z0-9])?\.)+[a-zA-Z]\x7b2,\x7d$ :
at least one dot-terminated label followed by a final token of two or more
letters.  Since labels and the final token contain no dot, a match decomposes
along the dots. -/
def isValidDomain (domain : String) : Bool :=
  let comps := splitOnChar '.' domain.data
  decide (2 ≤ comps.length) && comps.dropLast.all emailLabelOk &&
    (let tld := comps.getLastD []
     decide (2 ≤ tld.length) && tld.all Char.isAlpha)

/-- simpleHash of ClearbitClient: the JavaScript 32-bit rolling hash
hash = ((hash << 5) - hash) + charCode, coerced to Int32 each step, with
Math.abs applied at the end. -/
def toInt32 (n : Int) : Int := (n + 2 ^ 31) % 2 ^ 32 - 2 ^ 31

def simpleHashStep (h : Int) (c : Char) : Int :=
  toInt32 (toInt32 (h * 32) - h + c.toNat)

def simpleHash (str : String) : Nat :=
  (str.data.foldl simpleHashStep 0).natAbs

/-- domainToCompanyName of ClearbitClient: strip a common top-level-domain
suffix, take the last dot component, split on hyphens/underscores and
capitalize each word. -/
def domainToCompanyName (domain : String) : String :=
  let alts := ["com", "io", "co", "net", "org", "ai", "app", "dev", "tech"]
  let stripped :=
    match alts.find? (fun a => strEndsWith (jsToLower domain) ("." ++ a)) with
    | some a => (⟨domain.data.take (domain.data.length - (a.length + 1))⟩ : String)
    | none => domain
  let nameRaw := (splitOnChar '.' stripped.data).getLastD []
  let name := if nameRaw.isEmpty then domain.data else nameRaw
  let words := splitOnPred (fun c => c = '-' || c = '_') name
  let capWord : List Char → List Char
    | [] => []
    | c :: rest => c.toUpper :: rest.map Char.toLower
  String.intercalate " " (words.map (fun w => (⟨capWord w⟩ : String)))

def mockIndustries : List String :=
  ["Software", "Technology", "Financial Services", "Healthcare",
   "Marketing", "E-commerce", "Education", "Manufacturing"]

def mockEmployeeRanges : List String :=
  ["1-10", "11-50", "51-200", "201-500", "501-1000", "1001-5000"]

def mockTechStacks : List (List String) :=
  [["React", "Node.js", "PostgreSQL", "AWS"],
   ["Vue.js", "Python", "MongoDB", "GCP"],
   ["Angular", "Java", "MySQL", "Azure"],
   ["Next.js", "TypeScript", "Prisma", "Vercel"]]

def mockCities : List String :=
  ["San Francisco, CA, USA", "New York, NY, USA", "Austin, TX, USA",
   "Seattle, WA, USA", "Boston, MA, USA"]

def notFoundDomains : List String :=
  ["unknown-domain.com", "fake-company.xyz", "test123.net"]

/-- getMockData of ClearbitClient: deterministic synthetic company data,
indexed by the domain hash; domains containing one of the notFoundDomains
substrings simulate a NOT_FOUND provider answer. -/
def getMockData (domain : String) : EnrichmentResult :=
  if notFoundDomains.any (fun d => strIncludes (jsToLower domain) d) then
    .failure
      { code := .NOT_FOUND
        message := "[MOCK] No company data found for domain: " ++ domain }
  else
    let companyName := domainToCompanyName domain
    let hash := simpleHash domain
    let industry := mockIndustries.getD (hash % mockIndustries.length) ""
    .success
      { domain := domain
        companyName := some companyName
        industry := some industry
        description := some (companyName ++ " is a leading provider of innovative solutions in the " ++
          jsToLower industry ++ " space. They help businesses achieve their goals through cutting-edge technology and exceptional service.")
        employeeCount := some (mockEmployeeRanges.getD (hash % mockEmployeeRanges.length) "")
        location := some (mockCities.getD (hash % mockCities.length) "")
        website := some ("https://" ++ domain)
        linkedinUrl := some ("https://linkedin.com/company/" ++
          (⟨(splitOnChar '.' domain.data).headD []⟩ : String))
        twitterUrl := some ("https://twitter.com/" ++
          (⟨(splitOnChar '.' domain.data).headD []⟩ : String))
        technologies := mockTechStacks.getD (hash % mockTechStacks.length) []
        rawData := [("_mock", "true"), ("_domain", domain)] }

/-- enrichCompany of ClearbitClient.  The axios call of callClearbitApi is an
external collaborator and enters as the `realApi` parameter (its error mapping
to NOT_FOUND / RATE_LIMITED / API_ERROR happens inside that call and is
absorbed into the parameter); `useMock` is the constructor's configuration
predicate over the CLEARBIT_API_KEY environment value. -/
def enrichCompany (useMock : Bool) (realApi : String → EnrichmentResult)
    (domain : String) : EnrichmentResult :=
  if !isValidDomain domain then
    .failure { code := .INVALID_DOMAIN, message := "Invalid domain format: " ++ domain }
  else if useMock then getMockData domain
  else realApi domain

example : isValidDomain "stripe.com" = true := by decide
example : isValidDomain "company.c0" = false := by decide
example : isValidDomain "company.io" = true := by decide
example : domainToCompanyName "stripe.com" = "Stripe" := by decide
example : domainToCompanyName "my-cool_app.io" = "My Cool App" := by decide
example :
    getMockData "unknown-domain.com" =
      .failure
        { code := .NOT_FOUND
          message := "[MOCK] No company data found for domain: unknown-domain.com" } := by
  decide

/-! ## research.service.ts

The Prisma store is an explicit state: the CompanyResearch table is a list of
rows (a row has the fields of CompanyData) and the contacts' research statuses
a list of (contact id, status) pairs.  The async functions return
`Except String α`: `.error` is a rejected promise, `.ok` a resolved one.  An
`RWorld` fixes the external behaviour: the provider configuration and which
persistence operations throw (`none` = the operation succeeds). -/

structure ResearchResult where
  success : Bool
  domain : String
  status : ResearchStatus
  companyResearch : Option CompanyData
  error : Option String := none
deriving DecidableEq, Repr

structure RState where
  research : List CompanyData
  statuses : List (String × ResearchStatus)
deriving DecidableEq, Repr

structure RWorld where
  useMock : Bool
  realApi : String → EnrichmentResult
  statusWriteFails : String → ResearchStatus → Option String
  researchFindFails : String → Option String
  upsertFails : String → Option String

/-- The research status the state records for a contact. -/
def statusOf (contactId : String) (st : RState) : Option ResearchStatus :=
  (st.statuses.find? (fun p => p.1 = contactId)).map (fun p => p.2)

/-- updateContactResearchStatus of research.service.ts: prisma.contact.update
on the researchStatus field.  The update throws when the world says so or when
no row matches the id (Prisma rejects an update of a missing record). -/
def updateContactResearchStatus (w : RWorld) (contactId : String)
    (status : ResearchStatus) (st : RState) : Except String Unit × RState :=
  match w.statusWriteFails contactId status with
  | some e => (.error e, st)
  | none =>
    if st.statuses.any (fun p => p.1 = contactId) then
      (.ok (),
       { st with
          statuses := st.statuses.map
            (fun p => if p.1 = contactId then (p.1, status) else p) })
    else (.error "Record to update not found.", st)

/-- Number of CompanyResearch rows stored under a domain key. -/
def countRows (domainKey : String) (st : RState) : Nat :=
  (st.research.filter (fun r => r.domain = domainKey)).length

/-- saveCompanyResearch of research.service.ts: prisma.companyResearch.upsert
keyed by domain — every field is replaced on update, the full row inserted on
create. -/
def upsertCompanyResearch (data : CompanyData) (st : RState) : RState :=
  if st.research.any (fun r => r.domain = data.domain) then
    { st with
       research := st.research.map (fun r => if r.domain = data.domain then data else r) }
  else { st with research := st.research ++ [data] }

/-- researchCompany of research.service.ts.  The third component instruments
whether the external enrichment provider was invoked (true) or the call was
answered before reaching it (false): it adds no behaviour, only observability
for the cache-idempotence statements. -/
def researchCompany (w : RWorld) (domain : String) (st : RState) :
    Except String ResearchResult × RState × Bool :=
  let normalizedDomain := jsToLower (jsTrim domain)
  match w.researchFindFails normalizedDomain with
  | some e => (.error e, st, false)
  | none =>
    match st.research.find? (fun r => r.domain = normalizedDomain) with
    | some existingResearch =>
      (.ok { success := true, domain := normalizedDomain, status := .complete,
             companyResearch := some existingResearch }, st, false)
    | none =>
      match enrichCompany w.useMock w.realApi normalizedDomain with
      | .failure err =>
        (.ok { success := false, domain := normalizedDomain, status := .failed,
               companyResearch := none, error := some err.message }, st, true)
      | .success data =>
        match w.upsertFails data.domain with
        | some e => (.error e, st, true)
        | none =>
          (.ok { success := true, domain := normalizedDomain, status := .complete,
                 companyResearch := some data }, upsertCompanyResearch data st, true)

/-- The catch block of researchContactCompany: mark the contact failed (this
best-effort write itself has no protection in the source: if it throws, the
promise rejects) and return a structured failure result carrying the raw
domain argument. -/
def researchCatch (w : RWorld) (contactId domain errorMessage : String)
    (st : RState) : Except String ResearchResult × RState :=
  match updateContactResearchStatus w contactId .failed st with
  | (.ok _, st1) =>
    (.ok { success := false, domain := domain, status := .failed,
           companyResearch := none,
           error := some ("Research failed: " ++ errorMessage) }, st1)
  | (.error e2, st1) => (.error e2, st1)

/-- researchContactCompany of research.service.ts.  The initial write of
`processing` stands before the try block: its rejection propagates.  Inside
the try, a throw from researchCompany or from the status update is caught. -/
def researchContactCompany (w : RWorld) (contactId domain : String)
    (st : RState) : Except String ResearchResult × RState :=
  match updateContactResearchStatus w contactId .processing st with
  | (.error e, st0) => (.error e, st0)
  | (.ok _, st1) =>
    match researchCompany w domain st1 with
    | (.ok result, st2, _) =>
      let newStatus := if result.success then ResearchStatus.complete else .failed
      match updateContactResearchStatus w contactId newStatus st2 with
      | (.ok _, st3) => (.ok result, st3)
      | (.error e, st3) => researchCatch w contactId domain e st3
    | (.error e, st2, _) => researchCatch w contactId domain e st2

/-- The fire-and-forget trigger of createContact (contacts.service.ts): the
promise returned by researchContactCompany gets a .then that logs and a .catch
that logs and swallows, so the triggering contact-creation path observes
neither the result nor a rejection. -/
def autoResearch (w : RWorld) (contactId domain : String) (st : RState) : RState :=
  match researchContactCompany w contactId domain st with
  | (.ok _, st1) => st1
  | (.error _, st1) => st1

structure BatchContact where
  id : String
  companyDomain : String
deriving DecidableEq, Repr

/-- Observable events of a batch run: one research call per contact, and the
fixed 1000 ms pause the source awaits between windows. -/
inductive BEvent
  | research (contactId domain : String)
  | delay (ms : Nat)
deriving DecidableEq, Repr

/-- One window of batchResearchContacts: Promise.all over the window's calls.
Sequentialized left to right; when a call rejects, the remaining promises of
the window still run their effects and Promise.all rejects with the first
rejection. -/
def runWindow (w : RWorld) : List BatchContact → RState →
    Except String (List ResearchResult) × RState
  | [], st => (.ok [], st)
  | ct :: rest, st =>
    match researchContactCompany w ct.id ct.companyDomain st with
    | (.ok r, st1) =>
      match runWindow w rest st1 with
      | (.ok rs, st2) => (.ok (r :: rs), st2)
      | (.error e, st2) => (.error e, st2)
    | (.error e, st1) =>
      match runWindow w rest st1 with
      | (_, st2) => (.error e, st2)

/-- batchResearchContacts of research.service.ts: fixed-size windows of
`concurrency` contacts, a 1000 ms delay between consecutive windows (the
source's condition i + concurrency < contacts.length, i.e. a delay exactly
when contacts remain).  The source's loop does not terminate for
concurrency = 0, so the embedding carries the positivity hypothesis. -/
def batchResearchContacts (w : RWorld) (contacts : List BatchContact)
    (concurrency : Nat) (hc : 0 < concurrency) (st : RState) :
    Except String (List ResearchResult) × RState × List BEvent :=
  if hE : contacts.isEmpty then (.ok [], st, [])
  else
    let evs := (contacts.take concurrency).map
      (fun ct => BEvent.research ct.id ct.companyDomain)
    match runWindow w (contacts.take concurrency) st with
    | (.error e, st1) => (.error e, st1, evs)
    | (.ok rs, st1) =>
      if (contacts.drop concurrency).isEmpty then (.ok rs, st1, evs)
      else
        match batchResearchContacts w (contacts.drop concurrency) concurrency hc st1 with
        | (.ok rs2, st2, evs2) =>
          (.ok (rs ++ rs2), st2, evs ++ [BEvent.delay 1000] ++ evs2)
        | (.error e, st2, evs2) =>
          (.error e, st2, evs ++ [BEvent.delay 1000] ++ evs2)
termination_by contacts.length
decreasing_by
  simp only [List.length_drop]
  have h0 : contacts ≠ [] := by simpa [List.isEmpty_iff] using hE
  have : 0 < contacts.length := List.length_pos.mpr h0
  omega

/-- Modelled from the spec: the window decomposition the batch contract
describes — "processes in fixed-size windows" — written directly from the
spec's words, to be compared with the trace the embedded code produces. -/
def specChunks {α : Type} (c : Nat) (hc : 0 < c) (l : List α) : List (List α) :=
  if hE : l.isEmpty then []
  else l.take c :: specChunks c hc (l.drop c)
termination_by l.length
decreasing_by
  simp only [List.length_drop]
  have h0 : l ≠ [] := by simpa [List.isEmpty_iff] using hE
  have : 0 < l.length := List.length_pos.mpr h0
  omega

/-- Modelled from the spec: the event trace the batch contract describes —
each window's research calls, a single ≈1 s delay between consecutive
windows. -/
def specWindowTrace (c : Nat) (hc : 0 < c) (contacts : List BatchContact) :
    List BEvent :=
  List.intercalate [BEvent.delay 1000]
    ((specChunks c hc contacts).map
      (fun ch => ch.map (fun ct => BEvent.research ct.id ct.companyDomain)))

/-! ## contacts.service.ts -/

structure ContactRow where
  id : String
  userId : String
  email : String
  firstName : Option String
  lastName : Option String
  title : Option String
  company : Option String
  phone : Option String
  notes : Option String
  companyDomain : Option String
  researchStatus : ResearchStatus
deriving DecidableEq, Repr

structure CreateContactInput where
  email : String
  firstName : Option String := none
  lastName : Option String := none
  title : Option String := none
  company : Option String := none
  phone : Option String := none
  notes : Option String := none
deriving Repr

/-- The source's input?.trim() || null on an optional field. -/
def trimOptField (o : Option String) : Option String :=
  match o with
  | none => none
  | some s => let t := jsTrim s; if t = "" then none else some t

/-- createContact of contacts.service.ts, up to the created row and the
isBusinessContact flag it returns.  The `.error` cases are the two throws of
the source; `newId` stands for the id the store generates.  The asynchronous
research trigger that follows creation is `autoResearch` above and runs
detached from this return value. -/
def createContact (userId : String) (input : CreateContactInput)
    (contacts : List ContactRow) (newId : String) :
    Except String (ContactRow × Bool) :=
  match normalizeEmail input.email with
  | none => .error "Invalid email address"
  | some normalizedEmail =>
    if contacts.any (fun c => c.userId = userId && c.email = normalizedEmail) then
      .error "Contact with this email already exists"
    else
      let isBusiness := isBusinessEmail normalizedEmail
      let domain := extractDomain normalizedEmail
      .ok
        ({ id := newId
           userId := userId
           email := normalizedEmail
           firstName := trimOptField input.firstName
           lastName := trimOptField input.lastName
           title := trimOptField input.title
           company := trimOptField input.company
           phone := trimOptField input.phone
           notes := trimOptField input.notes
           companyDomain := if isBusiness then domain else none
           researchStatus := if isBusiness then .pending else .na },
         isBusiness)

/-! ## email.service.ts

The email table is a list of rows; the included contact relation is embedded
in the row.  The SendGrid call is the `send` parameter of the world;
timestamps are abstract (`now`).  Persistence operations of this service are
modelled as non-throwing, so the source's outer catch block (reachable only
through a throwing await) has no counterpart here. -/

structure EmailContact where
  email : String
  firstName : Option String
  lastName : Option String
deriving DecidableEq, Repr

structure EmailRow where
  id : String
  userId : String
  subject : String
  bodyText : String
  bodyHtml : Option String
  status : EmailStatus
  sentAt : Option Nat
  sendgridMessageId : Option String
  openedAt : Option Nat
  clickedAt : Option Nat
  bouncedAt : Option Nat
  contact : EmailContact
deriving DecidableEq, Repr

structure SendEmailParams where
  «to» : String
  toName : Option String
  subject : String
  text : String
  html : Option String
deriving DecidableEq, Repr

structure SendEmailResult where
  success : Bool
  messageId : Option String := none
  error : Option String := none
  mockMode : Option Bool := none
deriving DecidableEq, Repr

structure SendWorld where
  send : SendEmailParams → SendEmailResult
  now : Nat

structure SendEmailInfo where
  id : String
  status : EmailStatus
  sentAt : Option Nat
  sendgridMessageId : Option String
deriving DecidableEq, Repr

structure SendEmailResponse where
  success : Bool
  email : Option SendEmailInfo := none
  error : Option String := none
  mockMode : Option Bool := none
deriving DecidableEq, Repr

/-- The source's [firstName, lastName].filter(Boolean).join(' ') || undefined:
null and empty-string parts are dropped, an empty join becomes undefined. -/
def buildRecipientName (firstName lastName : Option String) : Option String :=
  let parts := ([firstName, lastName].filterMap id).filter (fun s => s ≠ "")
  let joined := String.intercalate " " parts
  if joined = "" then none else some joined

/-- prisma.email.update keyed by id alone, as in the source. -/
def updateEmailRow (emailId : String) (f : EmailRow → EmailRow)
    (table : List EmailRow) : List EmailRow :=
  table.map (fun e => if e.id = emailId then f e else e)

/-- sendSavedEmail of email.service.ts. -/
def sendSavedEmail (w : SendWorld) (emailId userId : String)
    (table : List EmailRow) : SendEmailResponse × List EmailRow :=
  match table.find? (fun e => e.id = emailId && e.userId = userId) with
  | none => ({ success := false, error := some "Email not found or access denied" }, table)
  | some email =>
    if email.status = .sent ∨ email.status = .delivered then
      ({ success := false, error := some "Email has already been sent" }, table)
    else if email.status ≠ .draft ∧ email.status ≠ .queued ∧ email.status ≠ .failed then
      ({ success := false,
         error := some ("Cannot send email with status: " ++ email.status.str) }, table)
    else if email.contact.email = "" then
      ({ success := false, error := some "Contact does not have an email address" }, table)
    else
      let recipientName := buildRecipientName email.contact.firstName email.contact.lastName
      let table1 := updateEmailRow emailId (fun e => { e with status := .queued }) table
      let sendResult := w.send
        { «to» := email.contact.email, toName := recipientName,
          subject := email.subject, text := email.bodyText, html := email.bodyHtml }
      if sendResult.success then
        let msgId :=
          match sendResult.messageId with
          | some m => if m = "" then none else some m
          | none => none
        let table2 := updateEmailRow emailId
          (fun e => { e with status := .sent, sentAt := some w.now,
                             sendgridMessageId := msgId }) table1
        ({ success := true
           email := some { id := email.id, status := .sent, sentAt := some w.now,
                           sendgridMessageId := msgId }
           mockMode := sendResult.mockMode }, table2)
      else
        let table2 := updateEmailRow emailId
          (fun e => { e with status := .failed }) table1
        ({ success := false
           error := some
             (match sendResult.error with
              | some e => if e = "" then "Failed to send email" else e
              | none => "Failed to send email") }, table2)

/-- getEmailStats of email.service.ts, as the association list of the object
it returns (keys in the source's declaration order).  The grouped count is
computed per status; `total` sums every group — the queued group included —
but the queued key itself is removed from the returned object by the
destructuring at the end of the source. -/
def getEmailStats (userId : String) (table : List EmailRow) : List (String × Nat) :=
  let countStatus := fun (s : EmailStatus) =>
    (table.filter (fun e => e.userId = userId && e.status = s)).length
  let total := (table.filter (fun e => e.userId = userId)).length
  [("total", total),
   ("draft", countStatus .draft),
   ("sent", countStatus .sent),
   ("delivered", countStatus .delivered),
   ("opened", countStatus .opened),
   ("clicked", countStatus .clicked),
   ("bounced", countStatus .bounced),
   ("failed", countStatus .failed)]

example : extractDomain "user@company.io" = some "company.io" := by decide

/-! ## Shared inputs for concrete instances -/

/-- A clean research world in mock mode: no persistence operation throws, the
real provider is never reached. -/
def mockWorld : RWorld :=
  { useMock := true
    realApi := fun _ => .failure { code := .API_ERROR, message := "unreachable" }
    statusWriteFails := fun _ _ => none
    researchFindFails := fun _ => none
    upsertFails := fun _ => none }

/-- A send world whose provider always succeeds with a fixed message id. -/
def okSendWorld : SendWorld :=
  { send := fun _ => { success := true, messageId := some "sg_1", mockMode := some true }
    now := 42 }

def cxContact : EmailContact :=
  { email := "jane@acme.com", firstName := some "Jane", lastName := none }

def emptyContact : EmailContact :=
  { email := "", firstName := none, lastName := none }

/-- An email already opened by its recipient. -/
def openedRow : EmailRow :=
  { id := "e1", userId := "u1", subject := "hi", bodyText := "body", bodyHtml := none,
    status := .opened, sentAt := some 7, sendgridMessageId := some "m7",
    openedAt := some 9, clickedAt := none, bouncedAt := none, contact := cxContact }

/-- An email already sent, whose contact has an empty address. -/
def sentEmptyRow : EmailRow :=
  { id := "e2", userId := "u1", subject := "hi", bodyText := "body", bodyHtml := none,
    status := .sent, sentAt := some 7, sendgridMessageId := some "m7",
    openedAt := none, clickedAt := none, bouncedAt := none, contact := emptyContact }

/-- A draft email whose contact has an empty address. -/
def draftEmptyRow : EmailRow :=
  { id := "e3", userId := "u1", subject := "hi", bodyText := "body", bodyHtml := none,
    status := .draft, sentAt := none, sendgridMessageId := none,
    openedAt := none, clickedAt := none, bouncedAt := none, contact := emptyContact }

/-- A queued email. -/
def queuedRow : EmailRow :=
  { id := "e4", userId := "u1", subject := "hi", bodyText := "body", bodyHtml := none,
    status := .queued, sentAt := none, sendgridMessageId := none,
    openedAt := none, clickedAt := none, bouncedAt := none, contact := cxContact }

/-! ## C1 -/

/-- C1 counterexample: an email stored with status `opened` is in the claimed
terminal-sent set, yet sendSavedEmail answers with the INVALID_STATE-class
message "Cannot send email with status: opened", not the ALREADY_SENT-class
"already been sent" message (the record is indeed left unchanged). -/
theorem C1_counterexample :
    (sendSavedEmail okSendWorld "e1" "u1" [openedRow]).1.error =
      some "Cannot send email with status: opened" ∧
    (sendSavedEmail okSendWorld "e1" "u1" [openedRow]).1.error ≠
      some "Email has already been sent" ∧
    (sendSavedEmail okSendWorld "e1" "u1" [openedRow]).2 = [openedRow] := by
  refine ⟨rfl, ?_, rfl⟩
  intro h
  simp [sendSavedEmail, okSendWorld, openedRow, cxContact, EmailStatus.str] at h

/-- C1 (amended): for a stored email of the caller, a status of sent or
delivered is answered with the ALREADY_SENT error "Email has already been
sent", while opened, clicked or bounced fall through to the INVALID_STATE
error "Cannot send email with status: ..."; in all five cases the table — in
particular the email's status, sentAt and provider message id — is returned
unchanged. -/
theorem C1_terminal_status_rejection (w : SendWorld) (emailId userId : String)
    (table : List EmailRow) (email : EmailRow)
    (hfind : table.find? (fun e => e.id = emailId && e.userId = userId) = some email) :
    ((email.status = .sent ∨ email.status = .delivered) →
      sendSavedEmail w emailId userId table =
        ({ success := false, error := some "Email has already been sent" }, table)) ∧
    ((email.status = .opened ∨ email.status = .clicked ∨ email.status = .bounced) →
      sendSavedEmail w emailId userId table =
        ({ success := false,
           error := some ("Cannot send email with status: " ++ email.status.str) },
         table)) := by
  constructor
  · rintro (h | h) <;> simp [sendSavedEmail, hfind, h]
  · rintro (h | h | h) <;> simp [sendSavedEmail, hfind, h]

/-- Witness for C1: the already-sent branch at a concrete sent email. -/
theorem C1_terminal_status_rejection_witness :
    sendSavedEmail okSendWorld "e2" "u1" [sentEmptyRow] =
      ({ success := false, error := some "Email has already been sent" }, [sentEmptyRow]) :=
  (C1_terminal_status_rejection okSendWorld "e2" "u1" [sentEmptyRow] sentEmptyRow
    (by decide)).1 (Or.inl (by decide))

/-! ## C7 -/

/-- C7 counterexample: an email whose resolved recipient address is empty but
whose status is already `sent` is answered with the ALREADY_SENT error, not
with the MISSING_RECIPIENT-class "Contact does not have an email address"
error: the recipient check only runs after the status checks pass. -/
theorem C7_counterexample :
    sentEmptyRow.contact.email = "" ∧
    (sendSavedEmail okSendWorld "e2" "u1" [sentEmptyRow]).1.error =
      some "Email has already been sent" ∧
    (sendSavedEmail okSendWorld "e2" "u1" [sentEmptyRow]).1.error ≠
      some "Contact does not have an email address" := by
  refine ⟨rfl, rfl, ?_⟩
  intro h
  simp [sendSavedEmail, okSendWorld, sentEmptyRow, emptyContact] at h

/-- C7 (amended): for a stored email of the caller in a sendable state
(draft, queued or failed) whose contact address is the empty string,
sendSavedEmail returns the MISSING_RECIPIENT error "Contact does not have an
email address" and the table is returned unchanged — in particular the status
is not advanced to queued, the recipient check standing before the queued
write. -/
theorem C7_missing_recipient (w : SendWorld) (emailId userId : String)
    (table : List EmailRow) (email : EmailRow)
    (hfind : table.find? (fun e => e.id = emailId && e.userId = userId) = some email)
    (hstatus : email.status = .draft ∨ email.status = .queued ∨ email.status = .failed)
    (hempty : email.contact.email = "") :
    sendSavedEmail w emailId userId table =
      ({ success := false, error := some "Contact does not have an email address" },
       table) := by
  rcases hstatus with h | h | h <;> simp [sendSavedEmail, hfind, h, hempty]

/-- Witness for C7: a concrete draft email with an empty contact address. -/
theorem C7_missing_recipient_witness :
    sendSavedEmail okSendWorld "e3" "u1" [draftEmptyRow] =
      ({ success := false, error := some "Contact does not have an email address" },
       [draftEmptyRow]) :=
  C7_missing_recipient okSendWorld "e3" "u1" [draftEmptyRow] draftEmptyRow
    (by decide) (Or.inl (by decide)) (by decide)

/-! ## C3 -/

/-- C3 counterexample: for a user holding one queued email, the statistics
object has no "queued" key at all (the queued email still counts into total),
refuting the claim that every status of the closed enum gets a key. -/
theorem C3_counterexample :
    (getEmailStats "u1" [queuedRow]).lookup "queued" = none ∧
    (getEmailStats "u1" [queuedRow]).lookup "total" = some 1 ∧
    (getEmailStats "u1" [queuedRow]).lookup "draft" = some 0 := by
  decide

/-- C3 (amended): the statistics of getEmailStats carry, for every user, a
key for every known email status except `queued` — which the source removes
from the returned object as internal state — each zero-initialized when the
user has no email in that status; the key list is exactly total, draft, sent,
delivered, opened, clicked, bounced, failed. -/
theorem C3_stats_keys (userId : String) (table : List EmailRow) (s : EmailStatus)
    (hs : s ≠ .queued) :
    (getEmailStats userId table).lookup s.str =
      some ((table.filter (fun e => e.userId = userId && e.status = s)).length) ∧
    (getEmailStats userId table).lookup "queued" = none ∧
    (getEmailStats userId table).map Prod.fst =
      ["total", "draft", "sent", "delivered", "opened", "clicked", "bounced", "failed"] := by
  cases s <;> simp_all [getEmailStats, EmailStatus.str, List.lookup]

/-- Witness for C3: a user with no emails reads zero under the draft key. -/
theorem C3_stats_keys_witness :
    (getEmailStats "u9" ([] : List EmailRow)).lookup EmailStatus.draft.str =
      some (([] : List EmailRow).filter
        (fun e => e.userId = "u9" && e.status = .draft)).length ∧
    (getEmailStats "u9" ([] : List EmailRow)).lookup "queued" = none ∧
    (getEmailStats "u9" ([] : List EmailRow)).map Prod.fst =
      ["total", "draft", "sent", "delivered", "opened", "clicked", "bounced", "failed"] :=
  C3_stats_keys "u9" [] .draft (by decide)
/-! ## C4 -/

theorem isBusinessEmail_extractDomain_ne_none {e : String}
    (h : isBusinessEmail e = true) : extractDomain e ≠ none := by
  intro hn
  unfold isBusinessEmail at h
  rw [hn] at h
  exact Bool.false_ne_true h

/-- C4: a contact successfully created by createContact is classified at
creation time: researchStatus is na exactly when the (normalized) email is
non-business, companyDomain is non-null exactly when it is business with a
successfully extracted domain, and a business contact starts at pending. -/
theorem C4_creation_invariant (userId : String) (input : CreateContactInput)
    (contacts : List ContactRow) (newId : String) (row : ContactRow) (isB : Bool)
    (h : createContact userId input contacts newId = .ok (row, isB)) :
    isB = isBusinessEmail row.email ∧
    (row.researchStatus = .na ↔ isBusinessEmail row.email = false) ∧
    (row.companyDomain ≠ none ↔
      isBusinessEmail row.email = true ∧ extractDomain row.email ≠ none) ∧
    (isBusinessEmail row.email = true → row.researchStatus = .pending) := by
  unfold createContact at h
  cases hn : normalizeEmail input.email with
  | none => rw [hn] at h; exact absurd h (by simp)
  | some ne =>
    rw [hn] at h
    by_cases hd : contacts.any (fun c => c.userId = userId && c.email = ne) = true
    · simp [hd] at h
    · simp only [hd, if_neg, Bool.not_eq_true, if_false, Except.ok.injEq,
        Prod.mk.injEq] at h
      obtain ⟨h1, h2⟩ := h
      subst h1
      subst h2
      by_cases hb : isBusinessEmail ne = true
      · exact ⟨by simp [hb], by simp [hb], by simp [hb], fun _ => by simp [hb]⟩
      · have hb' : isBusinessEmail ne = false := by simpa using hb
        exact ⟨by simp [hb'], by simp [hb'], by simp [hb'], fun hx => absurd hx hb⟩

def gmailInput : CreateContactInput := { email := "john@gmail.com" }

def gmailRow : ContactRow :=
  { id := "c1", userId := "u1", email := "john@gmail.com",
    firstName := none, lastName := none, title := none, company := none,
    phone := none, notes := none, companyDomain := none, researchStatus := .na }

/-- Witness for C4: the personal contact john@gmail.com gets
companyDomain = null and researchStatus = na. -/
theorem C4_creation_invariant_witness :
    false = isBusinessEmail gmailRow.email ∧
    (gmailRow.researchStatus = .na ↔ isBusinessEmail gmailRow.email = false) ∧
    (gmailRow.companyDomain ≠ none ↔
      isBusinessEmail gmailRow.email = true ∧ extractDomain gmailRow.email ≠ none) ∧
    (isBusinessEmail gmailRow.email = true → gmailRow.researchStatus = .pending) :=
  C4_creation_invariant "u1" gmailInput [] "c1" gmailRow false rfl

/-! ## C6 -/

/-- The substring after the last at sign (the claim's reference value). -/
def afterLastAt (s : String) : String :=
  match lastIndexOf '@' s.data with
  | some i => (⟨s.data.drop (i + 1)⟩ : String)
  | none => s

/-- extractDomain with its local let-bindings expanded, for rewriting. -/
theorem extractDomain_def (e : String) :
    extractDomain e =
      (if e = "" then none
       else
         match lastIndexOf '@' (jsToLower (jsTrim e)).data with
         | none => none
         | some atIndex =>
           if atIndex = 0 ∨ atIndex = (jsToLower (jsTrim e)).data.length - 1 then none
           else if !(((jsToLower (jsTrim e)).data.drop (atIndex + 1)).contains '.') then none
           else if !extractDomainRegexTest ((jsToLower (jsTrim e)).data.drop (atIndex + 1)) then
             none
           else some (⟨(jsToLower (jsTrim e)).data.drop (atIndex + 1)⟩ : String)) := rfl

/-- isBusinessEmail once the domain extraction has succeeded. -/
theorem isBusinessEmail_of_some {e d : String} (h : extractDomain e = some d) :
    isBusinessEmail e =
      (if PERSONAL_EMAIL_DOMAINS.contains d then false
       else if strEndsWith d ".edu" || strEndsWith d ".edu.au" || strEndsWith d ".ac.uk" then
         false
       else if strEndsWith d ".gov" || strEndsWith d ".gov.uk" || strEndsWith d ".gov.au" then
         false
       else true) := by
  unfold isBusinessEmail
  rw [h]

/-- isBusinessEmail when the domain extraction has failed. -/
theorem isBusinessEmail_of_none {e : String} (h : extractDomain e = none) :
    isBusinessEmail e = false := by
  unfold isBusinessEmail
  rw [h]

theorem extractDomain_afterLastAt {e d : String} (h : extractDomain e = some d) :
    d = afterLastAt (jsToLower (jsTrim e)) := by
  rw [extractDomain_def] at h
  by_cases h0 : e = ""
  · rw [if_pos h0] at h; exact Option.noConfusion h
  · rw [if_neg h0] at h
    unfold afterLastAt
    cases hL : lastIndexOf '@' (jsToLower (jsTrim e)).data with
    | none => rw [hL] at h; exact Option.noConfusion h
    | some i =>
      rw [hL] at h
      dsimp only at h ⊢
      by_cases hi : i = 0 ∨ i = (jsToLower (jsTrim e)).data.length - 1
      · rw [if_pos hi] at h; exact Option.noConfusion h
      · rw [if_neg hi] at h
        by_cases hdot : (((jsToLower (jsTrim e)).data.drop (i + 1)).contains '.') = true
        · rw [hdot, if_neg (by decide : ¬((!true) = true))] at h
          by_cases hre : extractDomainRegexTest ((jsToLower (jsTrim e)).data.drop (i + 1)) = true
          · rw [hre, if_neg (by decide : ¬((!true) = true))] at h
            injection h with h2
            exact h2.symm
          · rw [Bool.not_eq_true] at hre
            rw [hre, if_pos (by decide : (!false) = true)] at h
            exact Option.noConfusion h
        · rw [Bool.not_eq_true] at hdot
          rw [hdot, if_pos (by decide : (!false) = true)] at h
          exact Option.noConfusion h

/-- C6: the classifier contract.  (1) Every address the classifier accepts
whose domain is neither on the personal denylist nor carries an
educational/government suffix is business, and the extracted domain is the
lower-cased trimmed substring after the last at sign.  (2) A denylisted or
edu/gov-suffixed domain is never business.  (3) An address the domain
extraction rejects is never business.  (4)(5) No at sign, an at sign first or
last, a dotless domain part, or a domain part failing the character regular
expression each force extractDomain to null. -/
theorem C6_classifier_contract :
    (∀ e d, extractDomain e = some d →
      PERSONAL_EMAIL_DOMAINS.contains d = false →
      (strEndsWith d ".edu" || strEndsWith d ".edu.au" || strEndsWith d ".ac.uk") = false →
      (strEndsWith d ".gov" || strEndsWith d ".gov.uk" || strEndsWith d ".gov.au") = false →
      isBusinessEmail e = true ∧ d = afterLastAt (jsToLower (jsTrim e))) ∧
    (∀ e d, extractDomain e = some d →
      (PERSONAL_EMAIL_DOMAINS.contains d = true ∨
        strEndsWith d ".edu" = true ∨ strEndsWith d ".edu.au" = true ∨
        strEndsWith d ".ac.uk" = true ∨ strEndsWith d ".gov" = true ∨
        strEndsWith d ".gov.uk" = true ∨ strEndsWith d ".gov.au" = true) →
      isBusinessEmail e = false) ∧
    (∀ e, extractDomain e = none → isBusinessEmail e = false) ∧
    (∀ e, (lastIndexOf '@' (jsToLower (jsTrim e)).data = none ∨
           lastIndexOf '@' (jsToLower (jsTrim e)).data = some 0 ∨
           lastIndexOf '@' (jsToLower (jsTrim e)).data =
             some ((jsToLower (jsTrim e)).data.length - 1)) →
      extractDomain e = none) ∧
    (∀ e i, lastIndexOf '@' (jsToLower (jsTrim e)).data = some i →
      (((jsToLower (jsTrim e)).data.drop (i + 1)).contains '.' = false ∨
        extractDomainRegexTest ((jsToLower (jsTrim e)).data.drop (i + 1)) = false) →
      extractDomain e = none) := by
  refine ⟨?_, ?_, ?_, ?_, ?_⟩
  · intro e d h hp he hg
    refine ⟨?_, extractDomain_afterLastAt h⟩
    rw [isBusinessEmail_of_some h, hp, he, hg]
    simp
  · intro e d h hcase
    rw [isBusinessEmail_of_some h]
    rcases hcase with hc | hc | hc | hc | hc | hc | hc <;> rw [hc] <;> simp
  · intro e h
    exact isBusinessEmail_of_none h
  · intro e hcase
    rw [extractDomain_def]
    by_cases h0 : e = ""
    · rw [if_pos h0]
    · rw [if_neg h0]
      rcases hcase with hL | hL | hL <;> rw [hL] <;> dsimp only
      · rw [if_pos (Or.inl rfl)]
      · rw [if_pos (Or.inr rfl)]
  · intro e i hL hcase
    rw [extractDomain_def]
    by_cases h0 : e = ""
    · rw [if_pos h0]
    · rw [if_neg h0]
      rw [hL]
      dsimp only
      by_cases hi : i = 0 ∨ i = (jsToLower (jsTrim e)).data.length - 1
      · rw [if_pos hi]
      · rw [if_neg hi]
        rcases hcase with hc | hc
        · rw [hc, if_pos (by decide : (!false) = true)]
        · by_cases hdot : (((jsToLower (jsTrim e)).data.drop (i + 1)).contains '.') = true
          · rw [hdot, if_neg (by decide : ¬((!true) = true)), hc,
              if_pos (by decide : (!false) = true)]
          · rw [Bool.not_eq_true] at hdot
            rw [hdot, if_pos (by decide : (!false) = true)]

/-- Witness for C6: the business address ceo@stripe.com and the denylisted
john@gmail.com, instantiating the first two parts of the contract. -/
theorem C6_classifier_contract_witness :
    (isBusinessEmail "ceo@stripe.com" = true ∧
      "stripe.com" = afterLastAt (jsToLower (jsTrim "ceo@stripe.com"))) ∧
    isBusinessEmail "john@gmail.com" = false :=
  ⟨C6_classifier_contract.1 "ceo@stripe.com" "stripe.com"
      (by decide) (by decide) (by decide) (by decide),
   C6_classifier_contract.2.1 "john@gmail.com" "gmail.com"
      (by decide) (Or.inl (by decide))⟩

example : extractDomain "not-an-email" = none := by decide
example : extractDomain "ceo@Stripe.com " = some "stripe.com" := by decide
example : isBusinessEmail "john@gmail.com" = false := by decide
example : isBusinessEmail "ceo@stripe.com" = true := by decide
example : isBusinessEmail "dean@harvard.edu" = false := by decide
example : normalizeEmail "John@Gmail.com" = some "john@gmail.com" := by decide
example : normalizeEmail "not-an-email" = none := by decide

/-! ## Research-service helper lemmas -/

theorem any_fst_map_set (cid cid2 : String) (s : ResearchStatus)
    (l : List (String × ResearchStatus)) :
    (l.map (fun p => if p.1 = cid2 then (p.1, s) else p)).any (fun p => p.1 = cid) =
      l.any (fun p => p.1 = cid) := by
  induction l with
  | nil => rfl
  | cons hd tl ih => by_cases h : hd.1 = cid2 <;> simp [h, ih]

theorem statusOf_map_set_self (cid : String) (s : ResearchStatus)
    (l : List (String × ResearchStatus)) (hp : l.any (fun p => p.1 = cid) = true) :
    ((l.map (fun p => if p.1 = cid then (p.1, s) else p)).find?
        (fun p => p.1 = cid)).map (fun p => p.2) = some s := by
  induction l with
  | nil => simp at hp
  | cons hd tl ih =>
    by_cases h : hd.1 = cid
    · simp [h, List.find?_cons_of_pos]
    · have hp' : tl.any (fun p => p.1 = cid) = true := by
        simpa [h] using hp
      simp only [List.map_cons, if_neg h]
      rw [List.find?_cons_of_neg _ (by simpa using h)]
      exact ih hp'

/-- Under a non-throwing write and an existing contact row, the status update
resolves and rewrites exactly that contact's status. -/
theorem updateStatus_clean (w : RWorld) (cid : String) (s : ResearchStatus)
    (st : RState) (hW : w.statusWriteFails cid s = none)
    (hp : st.statuses.any (fun p => p.1 = cid) = true) :
    updateContactResearchStatus w cid s st =
      (.ok (),
       { st with
          statuses :=
            st.statuses.map (fun p => if p.1 = cid then (p.1, s) else p) }) := by
  unfold updateContactResearchStatus
  rw [hW]
  dsimp only
  rw [if_pos hp]

/-- researchCompany never touches the contact statuses. -/
theorem researchCompany_statuses (w : RWorld) (domain : String) (st : RState) :
    (researchCompany w domain st).2.1.statuses = st.statuses := by
  unfold researchCompany
  dsimp only
  cases w.researchFindFails (jsToLower (jsTrim domain)) with
  | some e => rfl
  | none =>
    dsimp only
    cases st.research.find? (fun r => r.domain = jsToLower (jsTrim domain)) with
    | some row => rfl
    | none =>
      dsimp only
      cases enrichCompany w.useMock w.realApi (jsToLower (jsTrim domain)) with
      | failure err => rfl
      | success data =>
        dsimp only
        cases w.upsertFails data.domain with
        | some e => rfl
        | none =>
          show (upsertCompanyResearch data st).statuses = st.statuses
          unfold upsertCompanyResearch
          split <;> rfl

/-- Any result the researchCompany promise resolves with carries the
normalized domain and the status matching its success flag. -/
theorem researchCompany_ok_shape (w : RWorld) (domain : String) (st : RState)
    (r : ResearchResult) (st1 : RState) (b : Bool)
    (h : researchCompany w domain st = (.ok r, st1, b)) :
    r.domain = jsToLower (jsTrim domain) ∧
      r.status = (if r.success then ResearchStatus.complete else .failed) := by
  unfold researchCompany at h
  dsimp only at h
  cases hF : w.researchFindFails (jsToLower (jsTrim domain)) with
  | some e => rw [hF] at h; exact absurd h (by simp)
  | none =>
    rw [hF] at h
    dsimp only at h
    cases hfind : st.research.find? (fun r => r.domain = jsToLower (jsTrim domain)) with
    | some row =>
      rw [hfind] at h
      simp only [Prod.mk.injEq, Except.ok.injEq] at h
      obtain ⟨h1, -, -⟩ := h
      subst h1
      exact ⟨rfl, rfl⟩
    | none =>
      rw [hfind] at h
      dsimp only at h
      cases hE : enrichCompany w.useMock w.realApi (jsToLower (jsTrim domain)) with
      | failure err =>
        rw [hE] at h
        simp only [Prod.mk.injEq, Except.ok.injEq] at h
        obtain ⟨h1, -, -⟩ := h
        subst h1
        exact ⟨rfl, rfl⟩
      | success data =>
        rw [hE] at h
        dsimp only at h
        cases hU : w.upsertFails data.domain with
        | some e =>
          rw [hU] at h
          exact absurd h (by simp)
        | none =>
          rw [hU] at h
          simp only [Prod.mk.injEq, Except.ok.injEq] at h
          obtain ⟨h1, -, -⟩ := h
          subst h1
          exact ⟨rfl, rfl⟩

/-- The exact resolution condition of researchContactCompany for a stored
contact: it suffices that the initial `processing` write and the catch
block's best-effort `failed` write do not throw.  The post-research status
write may throw freely — the catch absorbs it — and the promise still
resolves with a structured result, the contact's status ending at complete or
failed according to the result's success flag; contact-row presence is
untouched. -/
theorem researchContactCompany_ok (w : RWorld) (cid domain : String) (st : RState)
    (hW1 : w.statusWriteFails cid .processing = none)
    (hW2 : w.statusWriteFails cid .failed = none)
    (hp : st.statuses.any (fun p => p.1 = cid) = true) :
    ∃ r st1, researchContactCompany w cid domain st = (.ok r, st1) ∧
      statusOf cid st1 = some (if r.success then ResearchStatus.complete else .failed) ∧
      (∀ x, st1.statuses.any (fun p => p.1 = x) = st.statuses.any (fun p => p.1 = x)) := by
  unfold researchContactCompany
  rw [updateStatus_clean w cid .processing st hW1 hp]
  dsimp only
  set stP : RState :=
    { st with
       statuses :=
         st.statuses.map (fun p => if p.1 = cid then (p.1, .processing) else p) }
    with hstP
  have hpP : stP.statuses.any (fun p => p.1 = cid) = true := by
    rw [hstP]
    dsimp only
    rw [any_fst_map_set]
    exact hp
  have hanyP : ∀ x, stP.statuses.any (fun p => p.1 = x) =
      st.statuses.any (fun p => p.1 = x) := by
    intro x
    rw [hstP]
    dsimp only
    rw [any_fst_map_set]
  cases hrc : researchCompany w domain stP with
  | mk res rest =>
    cases rest with
    | mk st2 b =>
      have hst2 : st2.statuses = stP.statuses := by
        have := researchCompany_statuses w domain stP
        rw [hrc] at this
        exact this
      have hp2 : st2.statuses.any (fun p => p.1 = cid) = true := by
        rw [hst2]; exact hpP
      cases res with
      | ok result =>
        dsimp only
        cases hWn : w.statusWriteFails cid
            (if result.success = true then ResearchStatus.complete else .failed) with
        | none =>
          rw [updateStatus_clean w cid _ st2 hWn hp2]
          refine ⟨result, _, rfl, ?_, ?_⟩
          · unfold statusOf
            dsimp only
            exact statusOf_map_set_self cid _ st2.statuses hp2
          · intro x
            dsimp only
            rw [any_fst_map_set, hst2]
            exact hanyP x
        | some e =>
          have hupd : updateContactResearchStatus w cid
              (if result.success = true then ResearchStatus.complete else .failed)
              st2 = (.error e, st2) := by
            unfold updateContactResearchStatus
            rw [hWn]
          rw [hupd]
          dsimp only
          unfold researchCatch
          rw [updateStatus_clean w cid .failed st2 hW2 hp2]
          refine ⟨_, _, rfl, ?_, ?_⟩
          · unfold statusOf
            dsimp only
            exact statusOf_map_set_self cid _ st2.statuses hp2
          · intro x
            dsimp only
            rw [any_fst_map_set, hst2]
            exact hanyP x
      | error e =>
        dsimp only
        unfold researchCatch
        rw [updateStatus_clean w cid .failed st2 hW2 hp2]
        refine ⟨_, _, rfl, ?_, ?_⟩
        · unfold statusOf
          dsimp only
          exact statusOf_map_set_self cid _ st2.statuses hp2
        · intro x
          dsimp only
          rw [any_fst_map_set, hst2]
          exact hanyP x

/-! ## C2 -/

/-- A world whose write of `processing` for contact c1 throws. -/
def throwingWorld : RWorld :=
  { useMock := true
    realApi := fun _ => .failure { code := .API_ERROR, message := "unreachable" }
    statusWriteFails := fun cid s =>
      if cid = "c1" ∧ s = .processing then some "database connection lost" else none
    researchFindFails := fun _ => none
    upsertFails := fun _ => none }

def pendingState : RState := { research := [], statuses := [("c1", .pending)] }

/-- C2 counterexample: when the initial write of `processing` throws, the
researchContactCompany promise rejects — it does not return a structured
ResearchResult — and the contact's status stays `pending`, not `failed`: the
initial write stands before the try block and the rejection propagates out of
researchContactCompany (it is only the caller's fire-and-forget .catch that
stops it). -/
theorem C2_counterexample :
    researchContactCompany throwingWorld "c1" "acme.com" pendingState =
      (.error "database connection lost", pendingState) ∧
    statusOf "c1" pendingState = some .pending := ⟨rfl, rfl⟩

/-- A world whose writes of `complete` and `failed` for contact c1 throw
while the `processing` write succeeds. -/
def doubleThrowWorld : RWorld :=
  { useMock := true
    realApi := fun _ => .failure { code := .API_ERROR, message := "unreachable" }
    statusWriteFails := fun cid s =>
      if cid = "c1" ∧ (s = .complete ∨ s = .failed) then some "db down" else none
    researchFindFails := fun _ => none
    upsertFails := fun _ => none }

/-- C2 (amended): (1) provided the contact row exists, the initial
`processing` write succeeds, and the catch block's best-effort `failed` write
succeeds, researchContactCompany always resolves with a structured
ResearchResult — a throw of the enrichment step or of the post-research
status write is caught — and the contact's status ends at complete or failed
matching the outcome; (2) the fire-and-forget trigger of createContact
absorbs even a rejected research promise: the creation path only ever
observes the post-state, never an exception; (3) the promise does still
reject when, after a successful `processing` write, the post-research status
write throws and the unprotected catch write throws as well — the contact is
then left stuck at `processing`, not `failed` (a failure of the initial
`processing` write alone already rejects, by the counterexample). -/
theorem C2_orchestrator_containment :
    (∀ (w : RWorld) (cid domain : String) (st : RState),
      w.statusWriteFails cid .processing = none →
      w.statusWriteFails cid .failed = none →
      st.statuses.any (fun p => p.1 = cid) = true →
      ∃ r st1, researchContactCompany w cid domain st = (.ok r, st1) ∧
        statusOf cid st1 =
          some (if r.success then ResearchStatus.complete else .failed)) ∧
    (∀ (w : RWorld) (cid domain : String) (st : RState),
      autoResearch w cid domain st = (researchContactCompany w cid domain st).2) ∧
    (researchContactCompany doubleThrowWorld "c1" "stripe.com" pendingState).1 =
      .error "db down" ∧
    statusOf "c1"
        (researchContactCompany doubleThrowWorld "c1" "stripe.com" pendingState).2 =
      some .processing := by
  refine ⟨?_, ?_, rfl, rfl⟩
  · intro w cid domain st hW1 hW2 hp
    obtain ⟨r, st1, h1, h2, -⟩ := researchContactCompany_ok w cid domain st hW1 hW2 hp
    exact ⟨r, st1, h1, h2⟩
  · intro w cid domain st
    unfold autoResearch
    cases hrc : researchContactCompany w cid domain st with
    | mk res st1 => cases res <;> rfl

/-- Witness for C2: a clean mock world and a stored pending contact. -/
theorem C2_orchestrator_containment_witness :
    ∃ r st1, researchContactCompany mockWorld "c1" "stripe.com" pendingState =
        (.ok r, st1) ∧
      statusOf "c1" st1 =
        some (if r.success then ResearchStatus.complete else .failed) :=
  C2_orchestrator_containment.1 mockWorld "c1" "stripe.com" pendingState
    rfl rfl rfl

/-! ## C5: cache idempotence lemmas -/

theorem getMockData_success_domain {d : String} {data : CompanyData}
    (h : getMockData d = .success data) : data.domain = d := by
  unfold getMockData at h
  split at h
  · exact EnrichmentResult.noConfusion h
  · simp only [EnrichmentResult.success.injEq] at h
    rw [← h]

theorem enrichCompany_success_domain {useMock : Bool}
    {api : String → EnrichmentResult} {d : String} {data : CompanyData}
    (hApi : ∀ d2 data2, api d2 = .success data2 → data2.domain = d2)
    (h : enrichCompany useMock api d = .success data) : data.domain = d := by
  unfold enrichCompany at h
  split at h
  · exact EnrichmentResult.noConfusion h
  · split at h
    · exact getMockData_success_domain h
    · exact hApi d data h

theorem find?_replace_self (data : CompanyData) (l : List CompanyData)
    (hex : l.any (fun r => r.domain = data.domain) = true) :
    (l.map (fun r => if r.domain = data.domain then data else r)).find?
        (fun r => r.domain = data.domain) = some data := by
  induction l with
  | nil => simp at hex
  | cons hd tl ih =>
    by_cases h : hd.domain = data.domain
    · simp only [List.map_cons, if_pos h]
      rw [List.find?_cons_of_pos _ (by simp)]
    · have hex' : tl.any (fun r => r.domain = data.domain) = true := by
        simpa [h] using hex
      simp only [List.map_cons, if_neg h]
      rw [List.find?_cons_of_neg _ (by simpa using h)]
      exact ih hex'

theorem find?_append_self (data : CompanyData) (l : List CompanyData)
    (hex : l.any (fun r => r.domain = data.domain) = false) :
    (l ++ [data]).find? (fun r => r.domain = data.domain) = some data := by
  induction l with
  | nil =>
    simp only [List.nil_append]
    rw [List.find?_cons_of_pos _ (by simp)]
  | cons hd tl ih =>
    have h : ¬(hd.domain = data.domain) := by
      intro hc
      simp [hc] at hex
    have hex' : tl.any (fun r => r.domain = data.domain) = false := by
      simpa [h] using hex
    rw [List.cons_append, List.find?_cons_of_neg _ (by simpa using h)]
    exact ih hex'

/-- After the upsert, the row stored under the upserted key is the new data. -/
theorem find?_upsert (data : CompanyData) (st : RState) :
    (upsertCompanyResearch data st).research.find?
        (fun r => r.domain = data.domain) = some data := by
  unfold upsertCompanyResearch
  by_cases hex : st.research.any (fun r => r.domain = data.domain) = true
  · rw [if_pos hex]
    exact find?_replace_self data st.research hex
  · rw [if_neg hex]
    exact find?_append_self data st.research (Bool.not_eq_true _ |>.mp hex)

theorem count_replace (data : CompanyData) (dk : String) (l : List CompanyData) :
    ((l.map (fun r => if r.domain = data.domain then data else r)).filter
        (fun r => r.domain = dk)).length =
      (l.filter (fun r => r.domain = dk)).length := by
  induction l with
  | nil => rfl
  | cons hd tl ih =>
    simp only [List.map_cons]
    by_cases h : hd.domain = data.domain
    · rw [if_pos h]
      by_cases hk : hd.domain = dk
      · have hdk : data.domain = dk := h.symm.trans hk
        simp [List.filter_cons, decide_eq_true hk, decide_eq_true hdk, ih]
      · have hdk : ¬(data.domain = dk) := fun hc => hk (h.trans hc)
        simp [List.filter_cons, decide_eq_false hk, decide_eq_false hdk, ih]
    · rw [if_neg h]
      by_cases hk : hd.domain = dk
      · simp [List.filter_cons, decide_eq_true hk, ih]
      · simp [List.filter_cons, decide_eq_false hk, ih]

theorem count_zero_of_any_false (dk : String) (l : List CompanyData)
    (hex : l.any (fun r => r.domain = dk) = false) :
    (l.filter (fun r => r.domain = dk)).length = 0 := by
  induction l with
  | nil => rfl
  | cons hd tl ih =>
    have h : ¬(hd.domain = dk) := by
      intro hc
      simp [hc] at hex
    have hex' : tl.any (fun r => r.domain = dk) = false := by
      simpa [h] using hex
    simp [h, ih hex']

/-- The upsert preserves the at-most-one-row-per-domain invariant at every
key. -/
theorem countRows_upsert (data : CompanyData) (st : RState) (dk : String)
    (h : countRows dk st ≤ 1) : countRows dk (upsertCompanyResearch data st) ≤ 1 := by
  unfold countRows at *
  unfold upsertCompanyResearch
  by_cases hex : st.research.any (fun r => r.domain = data.domain) = true
  · rw [if_pos hex]
    dsimp only
    rw [count_replace]
    exact h
  · rw [if_neg hex]
    dsimp only
    rw [List.filter_append, List.length_append]
    by_cases hk : data.domain = dk
    · have h0 : (st.research.filter (fun r => r.domain = dk)).length = 0 := by
        refine count_zero_of_any_false dk st.research ?_
        rw [← hk]
        exact Bool.not_eq_true _ |>.mp hex
      simp [h0, hk]
    · have h1 : (([data] : List CompanyData).filter
          (fun r => r.domain = dk)).length = 0 := by simp [hk]
      rw [h1]
      simpa using h

def rstEmpty : RState := { research := [], statuses := [] }

/-- C5 counterexample: in mock mode the domain unknown-domain.com always
fails enrichment, so nothing is ever cached for it: the first call leaves the
store empty, and the second call reaches the external provider again (third
component true) instead of being served from the cache. -/
theorem C5_counterexample :
    researchCompany mockWorld "unknown-domain.com" rstEmpty =
      (.ok { success := false, domain := "unknown-domain.com", status := .failed,
             companyResearch := none,
             error := some "[MOCK] No company data found for domain: unknown-domain.com" },
       rstEmpty, true) ∧
    (researchCompany mockWorld "unknown-domain.com"
        (researchCompany mockWorld "unknown-domain.com" rstEmpty).2.1).2.2 = true :=
  ⟨rfl, rfl⟩

/-- C5 (amended): starting from a store with at most one row per domain,
(1) any researchCompany call preserves at most one row per domain — the write
is an upsert keyed by the normalized domain, so two calls never create two
rows — and (2) when a call succeeds, a second call with the same domain is
answered from the cache: identical result, unchanged store, and no provider
invocation (instrumentation flag false).  When the first call fails, nothing
is cached and the second call does reach the provider again (see the
counterexample). -/
theorem C5_cache_idempotence (w : RWorld) (domain : String) (st : RState)
    (hWF : ∀ dk, countRows dk st ≤ 1)
    (hApi : ∀ d data, w.realApi d = .success data → data.domain = d) :
    (∀ res st1 b1, researchCompany w domain st = (res, st1, b1) →
      ∀ dk, countRows dk st1 ≤ 1) ∧
    (∀ r1 st1 b1, researchCompany w domain st = (.ok r1, st1, b1) →
      r1.success = true →
      researchCompany w domain st1 = (.ok r1, st1, false)) := by
  constructor
  · intro res st1 b1 h dk
    unfold researchCompany at h
    dsimp only at h
    cases hF : w.researchFindFails (jsToLower (jsTrim domain)) with
    | some e =>
      rw [hF] at h
      simp only [Prod.mk.injEq] at h
      obtain ⟨-, h2, -⟩ := h
      rw [← h2]
      exact hWF dk
    | none =>
      rw [hF] at h
      dsimp only at h
      cases hfind : st.research.find? (fun r => r.domain = jsToLower (jsTrim domain)) with
      | some row =>
        rw [hfind] at h
        simp only [Prod.mk.injEq] at h
        obtain ⟨-, h2, -⟩ := h
        rw [← h2]
        exact hWF dk
      | none =>
        rw [hfind] at h
        dsimp only at h
        cases hE : enrichCompany w.useMock w.realApi (jsToLower (jsTrim domain)) with
        | failure err =>
          rw [hE] at h
          simp only [Prod.mk.injEq] at h
          obtain ⟨-, h2, -⟩ := h
          rw [← h2]
          exact hWF dk
        | success data =>
          rw [hE] at h
          dsimp only at h
          cases hU : w.upsertFails data.domain with
          | some e =>
            rw [hU] at h
            simp only [Prod.mk.injEq] at h
            obtain ⟨-, h2, -⟩ := h
            rw [← h2]
            exact hWF dk
          | none =>
            rw [hU] at h
            simp only [Prod.mk.injEq] at h
            obtain ⟨-, h2, -⟩ := h
            rw [← h2]
            exact countRows_upsert data st dk (hWF dk)
  · intro r1 st1 b1 h hsucc
    unfold researchCompany at h
    dsimp only at h
    cases hF : w.researchFindFails (jsToLower (jsTrim domain)) with
    | some e => rw [hF] at h; simp at h
    | none =>
      rw [hF] at h
      dsimp only at h
      cases hfind : st.research.find? (fun r => r.domain = jsToLower (jsTrim domain)) with
      | some row =>
        rw [hfind] at h
        simp only [Prod.mk.injEq, Except.ok.injEq] at h
        obtain ⟨h1, h2, -⟩ := h
        subst h2
        rw [← h1]
        unfold researchCompany
        dsimp only
        rw [hF]
        dsimp only
        rw [hfind]
      | none =>
        rw [hfind] at h
        dsimp only at h
        cases hE : enrichCompany w.useMock w.realApi (jsToLower (jsTrim domain)) with
        | failure err =>
          rw [hE] at h
          simp only [Prod.mk.injEq, Except.ok.injEq] at h
          obtain ⟨h1, -, -⟩ := h
          rw [← h1] at hsucc
          simp at hsucc
        | success data =>
          rw [hE] at h
          dsimp only at h
          cases hU : w.upsertFails data.domain with
          | some e => rw [hU] at h; simp at h
          | none =>
            rw [hU] at h
            simp only [Prod.mk.injEq, Except.ok.injEq] at h
            obtain ⟨h1, h2, -⟩ := h
            subst h2
            rw [← h1]
            have hdom : data.domain = jsToLower (jsTrim domain) :=
              enrichCompany_success_domain hApi hE
            have hfind2 : (upsertCompanyResearch data st).research.find?
                (fun r => r.domain = jsToLower (jsTrim domain)) = some data := by
              rw [← hdom]
              exact find?_upsert data st
            unfold researchCompany
            dsimp only
            rw [hF]
            dsimp only
            rw [hfind2]

/-- Witness for C5: a fresh store and the mock provider at stripe.com; the
first call succeeds, so both conclusions apply. -/
theorem C5_cache_idempotence_witness :
    (∀ res st1 b1, researchCompany mockWorld "stripe.com" rstEmpty = (res, st1, b1) →
      ∀ dk, countRows dk st1 ≤ 1) ∧
    (∀ r1 st1 b1,
      researchCompany mockWorld "stripe.com" rstEmpty = (.ok r1, st1, b1) →
      r1.success = true →
      researchCompany mockWorld "stripe.com" st1 = (.ok r1, st1, false)) :=
  C5_cache_idempotence mockWorld "stripe.com" rstEmpty
    (fun dk => by simp [countRows, rstEmpty])
    (fun d data h => EnrichmentResult.noConfusion h)

/-! ## C9 and C10: enrichment failures drive researchStatus to failed -/

/-- When the cache holds no row for the normalized domain and the enrichment
client answers with a failure, a clean-persistence researchContactCompany run
resolves with a failure result and leaves the contact failed. -/
theorem researchContact_enrich_failure (w : RWorld) (cid domain : String)
    (st : RState) (err : EnrichmentError)
    (hW : ∀ s, w.statusWriteFails cid s = none)
    (hF : w.researchFindFails (jsToLower (jsTrim domain)) = none)
    (hP : st.statuses.any (fun p => p.1 = cid) = true)
    (hC : st.research.find? (fun r => r.domain = jsToLower (jsTrim domain)) = none)
    (hE : enrichCompany w.useMock w.realApi (jsToLower (jsTrim domain)) = .failure err) :
    ∃ st1, researchContactCompany w cid domain st =
        (.ok { success := false, domain := jsToLower (jsTrim domain),
               status := .failed, companyResearch := none,
               error := some err.message }, st1) ∧
      statusOf cid st1 = some .failed := by
  unfold researchContactCompany
  rw [updateStatus_clean w cid .processing st (hW _) hP]
  dsimp only
  have hrc : researchCompany w domain
      { st with
         statuses :=
           st.statuses.map (fun p => if p.1 = cid then (p.1, .processing) else p) } =
      (.ok { success := false, domain := jsToLower (jsTrim domain),
             status := .failed, companyResearch := none,
             error := some err.message },
       { st with
          statuses :=
            st.statuses.map (fun p => if p.1 = cid then (p.1, .processing) else p) },
       true) := by
    unfold researchCompany
    dsimp only
    rw [hF]
    dsimp only
    rw [hC]
    dsimp only
    rw [hE]
  rw [hrc]
  dsimp only
  have hP1 : (st.statuses.map
      (fun p => if p.1 = cid then (p.1, ResearchStatus.processing) else p)).any
      (fun p => p.1 = cid) = true := by
    rw [any_fst_map_set]; exact hP
  rw [if_neg (show ¬(false = true) by decide)]
  rw [updateStatus_clean w cid .failed _ (hW _) hP1]
  refine ⟨_, rfl, ?_⟩
  unfold statusOf
  dsimp only
  exact statusOf_map_set_self cid _ _ hP1

def c9api : String → EnrichmentResult :=
  fun _ => .failure { code := .API_ERROR, message := "x" }

/-- C9 counterexample: the domain unknown-domain.com.c0 contains the
substring unknown-domain.com (and is a domain extractDomain accepts, so a
business contact can carry it), yet mock-mode enrichCompany answers
INVALID_DOMAIN — the format validation runs before the mock NOT_FOUND
simulation — refuting the claim that every such domain gets NOT_FOUND. -/
theorem C9_counterexample :
    strIncludes (jsToLower "unknown-domain.com.c0") "unknown-domain.com" = true ∧
    extractDomain "user@unknown-domain.com.c0" = some "unknown-domain.com.c0" ∧
    enrichCompany true c9api "unknown-domain.com.c0" =
      .failure { code := .INVALID_DOMAIN,
                 message := "Invalid domain format: unknown-domain.com.c0" } ∧
    EnrichmentCode.INVALID_DOMAIN ≠ EnrichmentCode.NOT_FOUND :=
  ⟨rfl, rfl, rfl, by decide⟩

/-- C9 (amended): in mock mode, (1) a domain passing the client's format
validation whose lower-cased form contains one of the substrings
unknown-domain.com, fake-company.xyz or test123.net is answered NOT_FOUND
instead of synthetic data; (2) a clean-persistence research run for a contact
whose normalized domain contains such a substring — whether or not it also
passes the format validation — always ends with researchStatus failed,
provided no CompanyResearch row is already cached for that domain. -/
theorem C9_mock_not_found :
    (∀ (api : String → EnrichmentResult) (domain : String),
      isValidDomain domain = true →
      notFoundDomains.any (fun d => strIncludes (jsToLower domain) d) = true →
      enrichCompany true api domain =
        .failure { code := .NOT_FOUND,
                   message := "[MOCK] No company data found for domain: " ++ domain }) ∧
    (∀ (w : RWorld) (cid domain : String) (st : RState),
      w.useMock = true →
      (∀ s, w.statusWriteFails cid s = none) →
      w.researchFindFails (jsToLower (jsTrim domain)) = none →
      st.statuses.any (fun p => p.1 = cid) = true →
      st.research.find? (fun r => r.domain = jsToLower (jsTrim domain)) = none →
      notFoundDomains.any (fun d =>
        strIncludes (jsToLower (jsToLower (jsTrim domain))) d) = true →
      ∃ r st1, researchContactCompany w cid domain st = (.ok r, st1) ∧
        r.success = false ∧ statusOf cid st1 = some .failed) := by
  have hmock : ∀ (api : String → EnrichmentResult) (domain : String),
      isValidDomain domain = true →
      notFoundDomains.any (fun d => strIncludes (jsToLower domain) d) = true →
      enrichCompany true api domain =
        .failure { code := .NOT_FOUND,
                   message := "[MOCK] No company data found for domain: " ++ domain } := by
    intro api domain hv hnf
    unfold enrichCompany
    rw [hv]
    rw [if_neg (show ¬((!true) = true) by decide), if_pos (show true = true from rfl)]
    unfold getMockData
    rw [if_pos hnf]
  constructor
  · exact hmock
  · intro w cid domain st hm hW hF hP hC hnf
    by_cases hv : isValidDomain (jsToLower (jsTrim domain)) = true
    · obtain ⟨st1, h1, h2⟩ := researchContact_enrich_failure w cid domain st
        { code := .NOT_FOUND,
          message := "[MOCK] No company data found for domain: " ++
            jsToLower (jsTrim domain) }
        hW hF hP hC (by rw [hm]; exact hmock w.realApi _ hv hnf)
      exact ⟨_, st1, h1, rfl, h2⟩
    · have hv' : isValidDomain (jsToLower (jsTrim domain)) = false := by
        simpa using hv
      obtain ⟨st1, h1, h2⟩ := researchContact_enrich_failure w cid domain st
        { code := .INVALID_DOMAIN,
          message := "Invalid domain format: " ++ jsToLower (jsTrim domain) }
        hW hF hP hC
        (by unfold enrichCompany
            rw [hv', if_pos (show (!false) = true by decide)])
      exact ⟨_, st1, h1, rfl, h2⟩

/-- Witness for C9: a pending contact with domain unknown-domain.com in the
clean mock world ends failed. -/
theorem C9_mock_not_found_witness :
    ∃ r st1, researchContactCompany mockWorld "c1" "unknown-domain.com"
        pendingState = (.ok r, st1) ∧
      r.success = false ∧ statusOf "c1" st1 = some .failed :=
  C9_mock_not_found.2 mockWorld "c1" "unknown-domain.com" pendingState
    rfl (fun _ => rfl) rfl rfl rfl rfl

/-- C10: the classifier's domain regular expression and the enrichment
client's disagree.  The address user@company.c0 is extracted and classified
business — so research is triggered — yet the client rejects the very same
domain with INVALID_DOMAIN in every provider mode, so a clean-persistence
research run for it deterministically ends with researchStatus failed. -/
theorem C10_regex_mismatch :
    extractDomain "user@company.c0" = some "company.c0" ∧
    isBusinessEmail "user@company.c0" = true ∧
    isValidDomain "company.c0" = false ∧
    (∀ (useMock : Bool) (api : String → EnrichmentResult),
      enrichCompany useMock api "company.c0" =
        .failure { code := .INVALID_DOMAIN,
                   message := "Invalid domain format: company.c0" }) ∧
    (∀ (w : RWorld) (cid : String) (st : RState),
      (∀ s, w.statusWriteFails cid s = none) →
      w.researchFindFails "company.c0" = none →
      st.statuses.any (fun p => p.1 = cid) = true →
      st.research.find? (fun r => r.domain = "company.c0") = none →
      ∃ r st1, researchContactCompany w cid "company.c0" st = (.ok r, st1) ∧
        r.success = false ∧ statusOf cid st1 = some .failed) := by
  refine ⟨rfl, rfl, rfl, fun m api => rfl, ?_⟩
  intro w cid st hW hF hP hC
  have hnorm : jsToLower (jsTrim "company.c0") = "company.c0" := rfl
  obtain ⟨st1, h1, h2⟩ := researchContact_enrich_failure w cid "company.c0" st
    { code := .INVALID_DOMAIN, message := "Invalid domain format: company.c0" }
    hW (by rw [hnorm]; exact hF) hP (by rw [hnorm]; exact hC) (by rw [hnorm]; exact rfl)
  exact ⟨_, st1, h1, rfl, h2⟩

/-- Witness for C10: the pending contact c1 with domain company.c0 in the
clean mock world ends failed. -/
theorem C10_regex_mismatch_witness :
    ∃ r st1, researchContactCompany mockWorld "c1" "company.c0" pendingState =
        (.ok r, st1) ∧
      r.success = false ∧ statusOf "c1" st1 = some .failed :=
  C10_regex_mismatch.2.2.2.2 mockWorld "c1" pendingState
    (fun _ => rfl) rfl rfl rfl

/-! ## C8: batch windows -/

/-- Under a fully clean world the enrichment cache and status writes never
throw, so researchCompany always resolves. -/
theorem researchCompany_resolves (w : RWorld) (domain : String) (st : RState)
    (hF : ∀ d, w.researchFindFails d = none)
    (hU : ∀ d, w.upsertFails d = none) :
    ∃ r st1 b, researchCompany w domain st = (.ok r, st1, b) := by
  unfold researchCompany
  dsimp only
  rw [hF]
  dsimp only
  cases hfind : st.research.find? (fun r => r.domain = jsToLower (jsTrim domain)) with
  | some row => exact ⟨_, _, _, rfl⟩
  | none =>
    dsimp only
    cases hE : enrichCompany w.useMock w.realApi (jsToLower (jsTrim domain)) with
    | failure err => exact ⟨_, _, _, rfl⟩
    | success data =>
      dsimp only
      rw [hU]
      exact ⟨_, _, _, rfl⟩

/-- A fully clean single research run: resolves, reports the normalized
domain, and does not disturb which contact rows exist. -/
theorem researchContactCompany_clean (w : RWorld) (cid domain : String)
    (st : RState)
    (hW : ∀ cid2 s, w.statusWriteFails cid2 s = none)
    (hF : ∀ d, w.researchFindFails d = none)
    (hU : ∀ d, w.upsertFails d = none)
    (hp : st.statuses.any (fun p => p.1 = cid) = true) :
    ∃ r st1, researchContactCompany w cid domain st = (.ok r, st1) ∧
      r.domain = jsToLower (jsTrim domain) ∧
      (∀ x, st1.statuses.any (fun p => p.1 = x) =
        st.statuses.any (fun p => p.1 = x)) := by
  unfold researchContactCompany
  rw [updateStatus_clean w cid .processing st (hW _ _) hp]
  dsimp only
  obtain ⟨r, st2, b, hrc⟩ := researchCompany_resolves w domain
    { st with
       statuses :=
         st.statuses.map (fun p => if p.1 = cid then (p.1, .processing) else p) }
    hF hU
  obtain ⟨hdom, -⟩ := researchCompany_ok_shape w domain _ r st2 b hrc
  have hst2 : st2.statuses =
      st.statuses.map (fun p => if p.1 = cid then (p.1, .processing) else p) := by
    have := researchCompany_statuses w domain
      { st with
         statuses :=
           st.statuses.map (fun p => if p.1 = cid then (p.1, .processing) else p) }
    rw [hrc] at this
    exact this
  have hp2 : st2.statuses.any (fun p => p.1 = cid) = true := by
    rw [hst2, any_fst_map_set]
    exact hp
  rw [hrc]
  dsimp only
  rw [updateStatus_clean w cid _ st2 (hW _ _) hp2]
  refine ⟨r, _, rfl, hdom, ?_⟩
  intro x
  dsimp only
  rw [any_fst_map_set, hst2, any_fst_map_set]

/-- One window of the batch under a clean world: every call resolves, the
results line up with the window's contacts, and contact-row presence is
untouched. -/
theorem runWindow_clean (w : RWorld)
    (hW : ∀ cid s, w.statusWriteFails cid s = none)
    (hF : ∀ d, w.researchFindFails d = none)
    (hU : ∀ d, w.upsertFails d = none) :
    ∀ (batch : List BatchContact) (st : RState),
      (∀ ct ∈ batch, st.statuses.any (fun p => p.1 = ct.id) = true) →
      ∃ rs st1, runWindow w batch st = (.ok rs, st1) ∧
        rs.map (fun r => r.domain) =
          batch.map (fun ct => jsToLower (jsTrim ct.companyDomain)) ∧
        (∀ x, st1.statuses.any (fun p => p.1 = x) =
          st.statuses.any (fun p => p.1 = x)) := by
  intro batch
  induction batch with
  | nil => exact fun st _ => ⟨[], st, rfl, rfl, fun x => rfl⟩
  | cons ct rest ih =>
    intro st hP
    obtain ⟨r, st1, h1, hdom, hpres⟩ :=
      researchContactCompany_clean w ct.id ct.companyDomain st hW hF hU
        (hP ct (List.mem_cons_self ct rest))
    obtain ⟨rs, st2, h2, hdoms, hpres2⟩ := ih st1
      (fun c hc => by rw [hpres]; exact hP c (List.mem_cons_of_mem _ hc))
    refine ⟨r :: rs, st2, ?_, ?_, ?_⟩
    · simp only [runWindow]
      rw [h1]
      dsimp only
      rw [h2]
    · simp only [List.map_cons, hdom, hdoms]
    · intro x
      rw [hpres2 x, hpres x]

theorem specWindowTrace_nil (c : Nat) (hc : 0 < c) :
    specWindowTrace c hc [] = [] := by
  unfold specWindowTrace
  rw [specChunks]
  simp [List.intercalate]

theorem specWindowTrace_single (c : Nat) (hc : 0 < c)
    (contacts : List BatchContact) (hne : contacts.isEmpty = false)
    (hdrop : (contacts.drop c).isEmpty = true) :
    specWindowTrace c hc contacts =
      (contacts.take c).map (fun ct => BEvent.research ct.id ct.companyDomain) := by
  unfold specWindowTrace
  rw [specChunks, dif_neg (by simp [hne]), specChunks, dif_pos hdrop]
  simp [List.intercalate, List.intersperse]

theorem specWindowTrace_step (c : Nat) (hc : 0 < c)
    (contacts : List BatchContact) (hne : contacts.isEmpty = false)
    (hdrop : (contacts.drop c).isEmpty = false) :
    specWindowTrace c hc contacts =
      (contacts.take c).map (fun ct => BEvent.research ct.id ct.companyDomain) ++
        [BEvent.delay 1000] ++ specWindowTrace c hc (contacts.drop c) := by
  unfold specWindowTrace
  rw [specChunks, dif_neg (by simp [hne])]
  have hcne : specChunks c hc (contacts.drop c) ≠ [] := by
    rw [specChunks, dif_neg (by simp [hdrop])]
    exact List.cons_ne_nil _ _
  rw [List.map_cons]
  cases hch : (specChunks c hc (contacts.drop c)).map
      (fun ch => ch.map (fun ct => BEvent.research ct.id ct.companyDomain)) with
  | nil => exact absurd (List.map_eq_nil_iff.mp hch) hcne
  | cons z zs =>
    simp [List.intercalate, List.intersperse]

/-- The batch run under a clean world, by strong induction on the number of
contacts: it resolves with one result per contact in input order (witnessed
through the normalized domains) and its event trace is exactly the
fixed-window decomposition with one 1000 ms delay between consecutive
windows. -/
theorem batch_clean (w : RWorld)
    (hW : ∀ cid s, w.statusWriteFails cid s = none)
    (hF : ∀ d, w.researchFindFails d = none)
    (hU : ∀ d, w.upsertFails d = none) :
    ∀ (n : Nat) (contacts : List BatchContact) (c : Nat) (hc : 0 < c) (st : RState),
      contacts.length ≤ n →
      (∀ ct ∈ contacts, st.statuses.any (fun p => p.1 = ct.id) = true) →
      ∃ rs st2,
        batchResearchContacts w contacts c hc st =
          (.ok rs, st2, specWindowTrace c hc contacts) ∧
        rs.map (fun r => r.domain) =
          contacts.map (fun ct => jsToLower (jsTrim ct.companyDomain)) := by
  intro n
  induction n with
  | zero =>
    intro contacts c hc st hlen hP
    have hnil : contacts = [] := List.length_eq_zero.mp (Nat.le_zero.mp hlen)
    subst hnil
    refine ⟨[], st, ?_, rfl⟩
    rw [batchResearchContacts, specWindowTrace_nil]
    rfl
  | succ n ih =>
    intro contacts c hc st hlen hP
    by_cases hE : contacts.isEmpty = true
    · have hnil : contacts = [] := by simpa [List.isEmpty_iff] using hE
      subst hnil
      refine ⟨[], st, ?_, rfl⟩
      rw [batchResearchContacts, specWindowTrace_nil]
      rfl
    · have hne : contacts.isEmpty = false := by simpa using hE
      obtain ⟨rs, st1, h1, hdoms, hpres⟩ := runWindow_clean w hW hF hU
        (contacts.take c) st (fun ct hct => hP ct (List.mem_of_mem_take hct))
      by_cases hR : (contacts.drop c).isEmpty = true
      · have htake : contacts.take c = contacts := by
          have : contacts.length ≤ c := by
            have hd : (contacts.drop c).length = 0 := by
              simp [List.isEmpty_iff] at hR
              simp [hR]
            rw [List.length_drop] at hd
            omega
          exact List.take_of_length_le this
        refine ⟨rs, st1, ?_, ?_⟩
        · rw [batchResearchContacts, dif_neg (by simp [hne])]
          dsimp only
          rw [h1]
          dsimp only
          rw [if_pos hR, specWindowTrace_single c hc contacts hne hR]
        · rw [hdoms, htake]
      · have hR' : (contacts.drop c).isEmpty = false := by simpa using hR
        have hlen2 : (contacts.drop c).length ≤ n := by
          rw [List.length_drop]
          have h0 : 0 < contacts.length := by
            cases contacts with
            | nil => simp at hne
            | cons a l => simp
          omega
        obtain ⟨rs2, st2, h2, hdoms2⟩ := ih (contacts.drop c) c hc st1 hlen2
          (fun ct hct => by rw [hpres]; exact hP ct (List.mem_of_mem_drop hct))
        refine ⟨rs ++ rs2, st2, ?_, ?_⟩
        · rw [batchResearchContacts, dif_neg (by simp [hne])]
          dsimp only
          rw [h1]
          dsimp only
          rw [if_neg (by simp [hR'] : ¬((contacts.drop c).isEmpty = true))]
          rw [h2]
          dsimp only
          rw [specWindowTrace_step c hc contacts hne hR']
        · rw [List.map_append, hdoms, hdoms2, ← List.map_append,
            List.take_append_drop]

/-- C8: under a clean persistence world, batchResearchContacts with any
positive concurrency limit resolves with exactly one outcome per input pair
in input order — an enrichment failure for one contact never aborts the rest,
the provider being arbitrary here — and its observable trace is the
fixed-size-window decomposition of the input with a single fixed 1000 ms
delay between consecutive windows. -/
theorem C8_batch_windows (w : RWorld) (contacts : List BatchContact) (c : Nat)
    (hc : 0 < c) (st : RState)
    (hW : ∀ cid s, w.statusWriteFails cid s = none)
    (hF : ∀ d, w.researchFindFails d = none)
    (hU : ∀ d, w.upsertFails d = none)
    (hP : ∀ ct ∈ contacts, st.statuses.any (fun p => p.1 = ct.id) = true) :
    ∃ rs st2,
      batchResearchContacts w contacts c hc st =
        (.ok rs, st2, specWindowTrace c hc contacts) ∧
      rs.map (fun r => r.domain) =
        contacts.map (fun ct => jsToLower (jsTrim ct.companyDomain)) :=
  batch_clean w hW hF hU contacts.length contacts c hc st (Nat.le_refl _) hP

def batchContactsEx : List BatchContact :=
  [{ id := "a1", companyDomain := "stripe.com" },
   { id := "a2", companyDomain := "unknown-domain.com" },
   { id := "a3", companyDomain := "linear.app" }]

def batchStateEx : RState :=
  { research := []
    statuses := [("a1", .pending), ("a2", .pending), ("a3", .pending)] }

/-- Witness for C8: three pending contacts — the middle one bound to fail
enrichment — in windows of two. -/
theorem C8_batch_windows_witness :
    ∃ rs st2,
      batchResearchContacts mockWorld batchContactsEx 2 (by decide) batchStateEx =
        (.ok rs, st2, specWindowTrace 2 (by decide) batchContactsEx) ∧
      rs.map (fun r => r.domain) =
        batchContactsEx.map (fun ct => jsToLower (jsTrim ct.companyDomain)) :=
  C8_batch_windows mockWorld batchContactsEx 2 (by decide) batchStateEx
    (fun _ _ => rfl) (fun _ => rfl) (fun _ => rfl) (by decide)

end ConversionAI
